import Mathlib

/-!
Verification of the match-statistics core of `src/index.tsx`: the aggregation
engine (`aggregatePlayerStats`), the derived-metrics calculator
(`PlayerProfile` / `MatchViewer` / `SortableTable`), the duel reconciliation
(`Duels.duelStats`) and the team balancer (`TeamBuilder.generateTeams`).

Embedding conventions:
- JS numbers carrying float data (`damage_total`, `utility_damage`,
  `hltv_3_0_score`) are modelled as `ℚ`; the counting stats are `Nat`.
  The numeric claims studied here concern exact comparisons and
  zero-denominator behaviour, where rational arithmetic agrees with the
  IEEE computation at the scales of this data.
- Divisions whose JS result can be `NaN`/`Infinity` are modelled with the
  explicit `JSNum` type below; divisions that the source guards with a
  positivity test stay in `ℚ`.
- JS objects used as maps (`duels`, the aggregation map) are modelled as
  insertion-ordered association lists; `Array.prototype.sort` (stable since
  ES2019) is modelled by a stable insertion sort.
- `steam_id` on a raw record is `number | string` in the source and is
  normalized with `.toString()`; this is the `SteamId` sum type.
-/

namespace CS

/-- One duel record stored on one player's side of a match (source `DuelData`). -/
structure DuelData where
  opponent_name : String
  kills : Nat
  deaths : Nat
  diff : Int
  deriving DecidableEq, Repr

/-- A raw steam id: the source allows a JSON number or a string
(`steam_id: number | string`). -/
inductive SteamId where
  | num (n : Nat)
  | str (s : String)
  deriving DecidableEq, Repr

/-- `.toString()` normalization applied throughout the source. -/
def SteamId.toStr : SteamId → String
  | .num n => toString n
  | .str s => s

/-- One player's performance record in one match (source `PlayerStats`).
Optional fields of older records are `Option`. -/
structure PlayerStats where
  name : String
  steam_id : SteamId
  last_team_name : String
  last_side : String
  duels : List (String × DuelData)
  kills : Nat
  deaths : Nat
  assists : Nat
  rounds_played : Nat
  damage_total : ℚ
  opening_kills : Nat
  opening_deaths : Nat
  opening_attempts : Nat
  sniper_kills : Nat
  utility_damage : ℚ
  flashes_thrown : Nat
  hltv_3_0_score : ℚ
  trade_kills : Option Nat
  clutches_won_1v1 : Option Nat
  clutches_won_1v2 : Option Nat
  clutches_won_1v3 : Option Nat
  clutches_won_1v4 : Option Nat
  clutches_won_1v5 : Option Nat
  deriving DecidableEq, Repr

/-- One ingested match (source `Match`). -/
structure Match where
  id : String
  filename : String
  timestamp : Int
  data : List PlayerStats
  deriving DecidableEq, Repr

/-- Career aggregate for one steam id (source `AggregatedPlayerStats`). -/
@[ext]
structure AggregatedPlayerStats where
  steam_id : String
  name : String
  «matches» : Nat
  kills : Nat
  deaths : Nat
  assists : Nat
  rounds_played : Nat
  damage_total : ℚ
  hltv_3_0_score : ℚ
  sniper_kills : Nat
  utility_damage : ℚ
  flashes_thrown : Nat
  opening_kills : Nat
  opening_deaths : Nat
  opening_attempts : Nat
  trade_kills : Nat
  clutches_won : Nat
  deriving DecidableEq, Repr

/-- First-match lookup in an insertion-ordered association list
(JS object property access). -/
def alookup {β : Type} (id : String) : List (String × β) → Option β
  | [] => none
  | (k, v) :: rest => if k = id then some v else alookup id rest

/-! ### Aggregation engine (source lines 238-293) -/

/-- `(player.clutches_won_1v1 || 0) + ... + (player.clutches_won_1v5 || 0)`. -/
def clutchSum (p : PlayerStats) : Nat :=
  p.clutches_won_1v1.getD 0 + p.clutches_won_1v2.getD 0 + p.clutches_won_1v3.getD 0 +
    p.clutches_won_1v4.getD 0 + p.clutches_won_1v5.getD 0

/-- The zeroed aggregate created on a steam id's first occurrence. -/
def emptyAgg (sid nm : String) : AggregatedPlayerStats :=
  { steam_id := sid, name := nm, «matches» := 0, kills := 0, deaths := 0, assists := 0,
    rounds_played := 0, damage_total := 0, hltv_3_0_score := 0, sniper_kills := 0,
    utility_damage := 0, flashes_thrown := 0, opening_kills := 0, opening_deaths := 0,
    opening_attempts := 0, trade_kills := 0, clutches_won := 0 }

/-- Folding one participant record into an aggregate (the body of the inner
`forEach` of `aggregatePlayerStats`). -/
def addPlayer (a : AggregatedPlayerStats) (p : PlayerStats) : AggregatedPlayerStats :=
  { a with
    name := p.name
    «matches» := a.«matches» + 1
    kills := a.kills + p.kills
    deaths := a.deaths + p.deaths
    assists := a.assists + p.assists
    rounds_played := a.rounds_played + p.rounds_played
    damage_total := a.damage_total + p.damage_total
    hltv_3_0_score := a.hltv_3_0_score + p.hltv_3_0_score
    sniper_kills := a.sniper_kills + p.sniper_kills
    utility_damage := a.utility_damage + p.utility_damage
    flashes_thrown := a.flashes_thrown + p.flashes_thrown
    opening_kills := a.opening_kills + p.opening_kills
    opening_deaths := a.opening_deaths + p.opening_deaths
    opening_attempts := a.opening_attempts + p.opening_attempts
    trade_kills := a.trade_kills + p.trade_kills.getD 0
    clutches_won := a.clutches_won + clutchSum p }

/-- `playerMap[steamIdStr]` update: create the entry on first sight
(at the end, i.e. JS object insertion order), otherwise fold in place. -/
def updateMap : List (String × AggregatedPlayerStats) → String → PlayerStats →
    List (String × AggregatedPlayerStats)
  | [], sid, p => [(sid, addPlayer (emptyAgg sid p.name) p)]
  | (k, v) :: rest, sid, p =>
      if k = sid then (k, addPlayer v p) :: rest else (k, v) :: updateMap rest sid p

/-- One participant step of the aggregation fold. -/
def aggStep (acc : List (String × AggregatedPlayerStats)) (p : PlayerStats) :
    List (String × AggregatedPlayerStats) :=
  updateMap acc p.steam_id.toStr p

/-- The `playerMap` built by `aggregatePlayerStats`. -/
def aggMap (ms : List Match) : List (String × AggregatedPlayerStats) :=
  ms.foldl (fun acc m => m.data.foldl aggStep acc) []

/-- Source `aggregatePlayerStats`: `Object.values(playerMap)`. -/
def aggregatePlayerStats (ms : List Match) : List AggregatedPlayerStats :=
  (aggMap ms).map Prod.snd

/-- All participant records carrying the given (normalized) steam id,
in fold order. -/
def occurrences (ms : List Match) (id : String) : List PlayerStats :=
  (ms.flatMap Match.data).filter (fun p => p.steam_id.toStr == id)

/-- The aggregate produced for a given steam id, if any. -/
def aggLookup (ms : List Match) (id : String) : Option AggregatedPlayerStats :=
  (aggregatePlayerStats ms).find? (fun a => a.steam_id == id)

/-- Identity of an aggregate with the (order-dependent) display name erased. -/
def stripName (a : AggregatedPlayerStats) : AggregatedPlayerStats := { a with name := "" }

/-- A zero aggregate used as fold seed; `addPlayer` overwrites its name. -/
def seedAgg (id : String) : AggregatedPlayerStats := emptyAgg id ""

/-- Map invariant: every stored aggregate carries its own key. -/
def keysOK (l : List (String × AggregatedPlayerStats)) : Prop :=
  ∀ kv ∈ l, (Prod.snd kv).steam_id = kv.1

/-- Keys of the aggregation map. -/
def mapKeys (l : List (String × AggregatedPlayerStats)) : List String := l.map Prod.fst

/-! ### Role classification (source lines 323-329) -/

inductive Role where
  | Sniper
  | Rifler
  deriving DecidableEq, Repr

/-- Source `getWeaponRole`, on the two fields it reads. -/
def getWeaponRoleCore (totalKills sniperKills : Nat) : Role :=
  if totalKills = 0 then .Rifler
  else if ((sniperKills : ℚ) / (totalKills : ℚ)) * 100 > 40 then .Sniper else .Rifler

/-- `getWeaponRole` applied to a per-match record. -/
def getWeaponRole (p : PlayerStats) : Role := getWeaponRoleCore p.kills p.sniper_kills

/-- `getWeaponRole` applied to an aggregate. -/
def getWeaponRoleAgg (a : AggregatedPlayerStats) : Role :=
  getWeaponRoleCore a.kills a.sniper_kills

/-! ### JS numbers for the unguarded divisions -/

/-- A JS `number` as far as the derived-metric formulas observe it:
`NaN`, the two infinities, or a finite (rational) value. The sign of zero is
not tracked; all denominators in the source are non-negative counts. -/
inductive JSNum where
  | nan
  | inf
  | ninf
  | num (q : ℚ)
  deriving DecidableEq, Repr

/-- JS `/`. `0/0 = NaN`, `x/0 = ±Infinity` for `x ≠ 0`, `x/±Infinity = 0`. -/
def jdiv : JSNum → JSNum → JSNum
  | .nan, _ => .nan
  | _, .nan => .nan
  | .inf, .inf => .nan
  | .inf, .ninf => .nan
  | .ninf, .inf => .nan
  | .ninf, .ninf => .nan
  | .inf, .num q => if 0 ≤ q then .inf else .ninf
  | .ninf, .num q => if 0 ≤ q then .ninf else .inf
  | .num _, .inf => .num 0
  | .num _, .ninf => .num 0
  | .num a, .num b =>
      if b = 0 then (if a = 0 then .nan else if 0 < a then .inf else .ninf)
      else .num (a / b)

/-- JS `*`. `±Infinity * 0 = NaN`. -/
def jmul : JSNum → JSNum → JSNum
  | .nan, _ => .nan
  | _, .nan => .nan
  | .inf, .inf => .inf
  | .inf, .ninf => .ninf
  | .ninf, .inf => .ninf
  | .ninf, .ninf => .inf
  | .inf, .num q => if q = 0 then .nan else if 0 < q then .inf else .ninf
  | .num q, .inf => if q = 0 then .nan else if 0 < q then .inf else .ninf
  | .ninf, .num q => if q = 0 then .nan else if 0 < q then .ninf else .inf
  | .num q, .ninf => if q = 0 then .nan else if 0 < q then .ninf else .inf
  | .num a, .num b => .num (a * b)

/-- JS `Math.round`: half rounds toward `+Infinity`; `NaN`/infinities pass. -/
def jround : JSNum → JSNum
  | .nan => .nan
  | .inf => .inf
  | .ninf => .ninf
  | .num q => .num (⌊q + 1 / 2⌋ : ℤ)

/-- JS `Math.min`: any `NaN` argument wins. -/
def jmin : JSNum → JSNum → JSNum
  | .nan, _ => .nan
  | _, .nan => .nan
  | .ninf, _ => .ninf
  | _, .ninf => .ninf
  | .inf, b => b
  | a, .inf => a
  | .num a, .num b => .num (min a b)

/-! ### Derived metrics (source `PlayerProfile` lines 712-727, `SortableTable`
line 531, `MatchViewer` line 760) -/

/-- `matchCount > 0 ? hltv_3_0_score / matchCount : 0` (line 712). -/
def profileRating (a : AggregatedPlayerStats) : ℚ :=
  if 0 < a.«matches» then a.hltv_3_0_score / (a.«matches» : ℚ) else 0

/-- `deaths > 0 ? kills / deaths : kills` (line 713). -/
def profileKD (a : AggregatedPlayerStats) : ℚ :=
  if 0 < a.deaths then (a.kills : ℚ) / (a.deaths : ℚ) else (a.kills : ℚ)

/-- `rounds_played > 0 ? damage_total / rounds_played : 0` (line 714). -/
def profileADR (a : AggregatedPlayerStats) : ℚ :=
  if 0 < a.rounds_played then a.damage_total / (a.rounds_played : ℚ) else 0

/-- `rounds_played > 0 ? kills / rounds_played : 0` (line 715). -/
def profileKPR (a : AggregatedPlayerStats) : ℚ :=
  if 0 < a.rounds_played then (a.kills : ℚ) / (a.rounds_played : ℚ) else 0

/-- `rounds_played > 0 ? assists / rounds_played : 0` (line 716). -/
def profileAPR (a : AggregatedPlayerStats) : ℚ :=
  if 0 < a.rounds_played then (a.assists : ℚ) / (a.rounds_played : ℚ) else 0

/-- `rounds_played > 0 ? deaths / rounds_played : 0` (line 717). -/
def profileDPR (a : AggregatedPlayerStats) : ℚ :=
  if 0 < a.rounds_played then (a.deaths : ℚ) / (a.rounds_played : ℚ) else 0

/-- The numeric `kd` of the leaderboard row (line 531). -/
def tableKD (a : AggregatedPlayerStats) : ℚ :=
  if 0 < a.deaths then (a.kills : ℚ) / (a.deaths : ℚ) else (a.kills : ℚ)

/-- `calcScore = (val, target) => Math.min(100, Math.round((val / target) * 100))`
(line 719); `val` may already be `NaN`/`Infinity`. -/
def calcScore (val : JSNum) (target : ℚ) : JSNum :=
  jmin (JSNum.num 100) (jround (jmul (jdiv val (JSNum.num target)) (JSNum.num 100)))

/-- `entryScore` (line 721): the only playstyle score whose denominator the
source guards. -/
def entryScore (a : AggregatedPlayerStats) : JSNum :=
  if 0 < a.opening_attempts then
    calcScore (jdiv (JSNum.num (a.opening_kills : ℚ)) (JSNum.num (a.opening_attempts : ℚ))) (3 / 5)
  else JSNum.num 0

/-- `openingScore = calcScore(opening_kills / matchCount, 3.5)` (line 722). -/
def openingScore (a : AggregatedPlayerStats) : JSNum :=
  calcScore (jdiv (JSNum.num (a.opening_kills : ℚ)) (JSNum.num (a.«matches» : ℚ))) (7 / 2)

/-- `tradingScore = calcScore(trade_kills / matchCount, 3.0)` (line 723). -/
def tradingScore (a : AggregatedPlayerStats) : JSNum :=
  calcScore (jdiv (JSNum.num (a.trade_kills : ℚ)) (JSNum.num (a.«matches» : ℚ))) 3

/-- `clutchingScore = calcScore(clutches_won / matchCount, 1.0)` (line 724). -/
def clutchingScore (a : AggregatedPlayerStats) : JSNum :=
  calcScore (jdiv (JSNum.num (a.clutches_won : ℚ)) (JSNum.num (a.«matches» : ℚ))) 1

/-- `snipingScore = calcScore(sniper_kills / kills, 0.5)` (line 725):
the division is not guarded against `kills = 0`. -/
def snipingScore (a : AggregatedPlayerStats) : JSNum :=
  calcScore (jdiv (JSNum.num (a.sniper_kills : ℚ)) (JSNum.num (a.kills : ℚ))) (1 / 2)

/-- `utilityScore = calcScore(utility_damage / matchCount, 300)` (line 726). -/
def utilityScore (a : AggregatedPlayerStats) : JSNum :=
  calcScore (jdiv (JSNum.num (a.utility_damage : ℚ)) (JSNum.num (a.«matches» : ℚ))) 300

/-- The per-match scoreboard ADR `(p.damage_total / p.rounds_played)`
(line 760): unguarded. -/
def matchADR (p : PlayerStats) : JSNum :=
  jdiv (JSNum.num p.damage_total) (JSNum.num (p.rounds_played : ℚ))

/-! ### Stable sorting (JS `Array.prototype.sort`, descending comparators) -/

/-- Insert `x` behind every element of at least its key (descending order,
later-inserted elements land after equal keys: stability). -/
def insertDesc {α : Type} (key : α → ℚ) (x : α) : List α → List α
  | [] => [x]
  | y :: ys => if key y < key x then x :: y :: ys else y :: insertDesc key x ys

/-- Stable descending sort by a rational key, as a left fold of insertions. -/
def insSortDesc {α : Type} (key : α → ℚ) (l : List α) : List α :=
  l.foldl (fun acc x => insertDesc key x acc) []

/-! ### Duel reconciliation (source `Duels.duelStats`, lines 816-834) -/

structure DuelHistoryEntry where
  m : Match
  p1Role : Role
  p2Role : Role
  p1Team : String
  p2Team : String
  p1Kills : Nat
  p2Kills : Nat
  deriving DecidableEq, Repr

structure DuelResult where
  p1 : AggregatedPlayerStats
  p2 : AggregatedPlayerStats
  p1Kills : Nat
  p2Kills : Nat
  history : List DuelHistoryEntry
  deriving DecidableEq, Repr

/-- The body of the `matches.forEach` of `duelStats`: state is
`(p1Kills, p2Kills, history)`. -/
def duelStep (id1 id2 : String) (st : Nat × Nat × List DuelHistoryEntry) (m : Match) :
    Nat × Nat × List DuelHistoryEntry :=
  match m.data.find? (fun p => p.steam_id.toStr == id1),
      m.data.find? (fun p => p.steam_id.toStr == id2) with
  | some p1Data, some p2Data =>
      match alookup id2 p1Data.duels with
      | some d =>
          (st.1 + d.kills, st.2.1 + d.deaths,
            st.2.2 ++ [⟨m, getWeaponRole p1Data, getWeaponRole p2Data,
              p1Data.last_team_name, p2Data.last_team_name, d.kills, d.deaths⟩])
      | none =>
          match alookup id1 p2Data.duels with
          | some d =>
              (st.1 + d.deaths, st.2.1 + d.kills,
                st.2.2 ++ [⟨m, getWeaponRole p1Data, getWeaponRole p2Data,
                  p1Data.last_team_name, p2Data.last_team_name, d.deaths, d.kills⟩])
          | none => st
  | _, _ => st

/-- Source `duelStats` (memoized in `Duels`): `null` when either selected id
has no aggregate entry; otherwise the fold over all matches with the history
sorted by timestamp descending. -/
def duelStats (allPlayers : List AggregatedPlayerStats) (ms : List Match)
    (id1 id2 : String) : Option DuelResult :=
  match allPlayers.find? (fun p => p.steam_id == id1),
      allPlayers.find? (fun p => p.steam_id == id2) with
  | some p1, some p2 =>
      let st := ms.foldl (duelStep id1 id2) (0, 0, [])
      some ⟨p1, p2, st.1, st.2.1, insSortDesc (fun e => (e.m.timestamp : ℚ)) st.2.2⟩
  | _, _ => none

/-- The `(aKills, bKills)` contribution of one match to the running duel
totals, read off the branch structure of `duelStep`. -/
def matchContrib (id1 id2 : String) (m : Match) : Option (Nat × Nat) :=
  match m.data.find? (fun p => p.steam_id.toStr == id1),
      m.data.find? (fun p => p.steam_id.toStr == id2) with
  | some p1Data, some p2Data =>
      match alookup id2 p1Data.duels with
      | some d => some (d.kills, d.deaths)
      | none =>
          match alookup id1 p2Data.duels with
          | some d => some (d.deaths, d.kills)
          | none => none
  | _, _ => none

/-- The history entry one match contributes, if any. -/
def matchHistEntry (id1 id2 : String) (m : Match) : Option DuelHistoryEntry :=
  match m.data.find? (fun p => p.steam_id.toStr == id1),
      m.data.find? (fun p => p.steam_id.toStr == id2) with
  | some p1Data, some p2Data =>
      match alookup id2 p1Data.duels with
      | some d =>
          some ⟨m, getWeaponRole p1Data, getWeaponRole p2Data,
            p1Data.last_team_name, p2Data.last_team_name, d.kills, d.deaths⟩
      | none =>
          match alookup id1 p2Data.duels with
          | some d =>
              some ⟨m, getWeaponRole p1Data, getWeaponRole p2Data,
                p1Data.last_team_name, p2Data.last_team_name, d.deaths, d.kills⟩
          | none => none
  | _, _ => none

/-! ### Team balancer (source `TeamBuilder.generateTeams`, lines 780-793) -/

inductive Assignment where
  | team1
  | team2
  | bench
  deriving DecidableEq, Repr

/-- `team.reduce((sum, p) => sum + p.hltv_3_0_score / p.«matches», 0)`.
Aggregates always have `matches ≥ 1`, so the `ℚ` division matches JS. -/
def avgRating (p : AggregatedPlayerStats) : ℚ :=
  p.hltv_3_0_score / (p.«matches» : ℚ)

def teamRating (t : List AggregatedPlayerStats) : ℚ := (t.map avgRating).sum

/-- The body of `pool.forEach` (lines 787-791). -/
def buildStep (teamSize : Nat) (st : List AggregatedPlayerStats × List AggregatedPlayerStats)
    (player : AggregatedPlayerStats) :
    List AggregatedPlayerStats × List AggregatedPlayerStats :=
  if st.1.length < teamSize ∧ (teamRating st.1 ≤ teamRating st.2 ∨ teamSize ≤ st.2.length) then
    (st.1 ++ [player], st.2)
  else if st.2.length < teamSize then (st.1, st.2 ++ [player])
  else st

/-- The non-benched, resolvable roster (line 781). -/
def activeRoster (allPlayers : List AggregatedPlayerStats) (lobbyPlayers : List String)
    (manualAssignments : String → Option Assignment) : List AggregatedPlayerStats :=
  (lobbyPlayers.filter (fun id => decide (manualAssignments id ≠ some Assignment.bench))).filterMap
    (fun id => allPlayers.find? (fun p => p.steam_id == id))

/-- Source `generateTeams`: `none` is the validation-failure early return
(the `alert` path leaves `generatedTeams` untouched). -/
def generateTeams (allPlayers : List AggregatedPlayerStats) (lobbyPlayers : List String)
    (manualAssignments : String → Option Assignment) :
    Option (List AggregatedPlayerStats × List AggregatedPlayerStats) :=
  let activePlayers := activeRoster allPlayers lobbyPlayers manualAssignments
  if activePlayers.length % 2 ≠ 0 ∨ activePlayers.length < 2 then none
  else
    let teamSize := activePlayers.length / 2
    let team1 := activePlayers.filter
      (fun p => decide (manualAssignments p.steam_id = some Assignment.team1))
    let team2 := activePlayers.filter
      (fun p => decide (manualAssignments p.steam_id = some Assignment.team2))
    let pool := insSortDesc avgRating
      (activePlayers.filter (fun p => decide (manualAssignments p.steam_id = none)))
    some (pool.foldl (buildStep teamSize) (team1, team2))

/-! ### Concrete data used by the witnesses -/

/-- A minimal participant record; the ℚ-valued fields are zero so that
closed-term evaluation stays in `Nat`. -/
def mkRec (nm : String) (sid : SteamId) (k d : Nat) : PlayerStats :=
  { name := nm, steam_id := sid, last_team_name := "T", last_side := "CT", duels := [],
    kills := k, deaths := d, assists := 0, rounds_played := 24, damage_total := 0,
    opening_kills := 0, opening_deaths := 0, opening_attempts := 0, sniper_kills := 0,
    utility_damage := 0, flashes_thrown := 0, hltv_3_0_score := 0, trade_kills := none,
    clutches_won_1v1 := none, clutches_won_1v2 := none, clutches_won_1v3 := none,
    clutches_won_1v4 := none, clutches_won_1v5 := none }

/-- Two matches for the same player (numeric id `1` then string id `"1"`),
with the spec's clutch-bracket example on the first one. -/
def recA : PlayerStats :=
  { mkRec "Alpha" (SteamId.num 1) 20 10 with
    clutches_won_1v1 := some 2, clutches_won_1v2 := some 1, clutches_won_1v3 := some 0,
    trade_kills := some 4 }

def recB : PlayerStats := mkRec "Beta" (SteamId.str "1") 20 10

def matchA : Match := { id := "m1", filename := "a", timestamp := 1, data := [recA] }

def matchB : Match := { id := "m2", filename := "b", timestamp := 2, data := [recB] }

def msEx : List Match := [matchA, matchB]

def msExSwapped : List Match := [matchB, matchA]

def aggEx : AggregatedPlayerStats := (aggLookup msEx "1").getD (emptyAgg "" "")

/-- A one-match history for a player with 10 kills and 0 deaths. -/
def msExKD : List Match :=
  [{ id := "m9", filename := "c", timestamp := 3, data := [mkRec "Solo" (SteamId.str "9") 10 0] }]

def aggExKD : AggregatedPlayerStats := (aggLookup msExKD "9").getD (emptyAgg "" "")

/-- An aggregate of one match with zero kills (reachable: a player can play a
map without killing). -/
def aggKillsZero : AggregatedPlayerStats :=
  { emptyAgg "7" "z" with «matches» := 1, rounds_played := 24 }

/-- An aggregate-shaped record with `matches = 0` (all numerators zero). -/
def aggNoMatches : AggregatedPlayerStats := emptyAgg "8" "w"

/-- A per-match record with `rounds_played = 0` and no damage. -/
def recZeroRounds : PlayerStats := { mkRec "r0" (SteamId.str "5") 0 0 with rounds_played := 0 }

/-- A per-match record with `rounds_played = 0` and positive damage. -/
def recZeroRoundsDmg : PlayerStats :=
  { mkRec "r1" (SteamId.str "6") 0 0 with rounds_played := 0, damage_total := 5 }

/-- Duel-reconciliation data: only B's side recorded the duel
(`{kills: 3, deaths: 1}` against A), the spec's fallback example. -/
def duelRecA : PlayerStats := mkRec "A" (SteamId.str "1") 0 0

def duelRecB : PlayerStats :=
  { mkRec "B" (SteamId.str "2") 0 0 with
    duels := [("1", { opponent_name := "A", kills := 3, deaths := 1, diff := 2 })] }

def duelMatch : Match :=
  { id := "dm", filename := "d", timestamp := 5, data := [duelRecA, duelRecB] }

def duelMs : List Match := [duelMatch]

def duelAggs : List AggregatedPlayerStats := aggregatePlayerStats duelMs

def duelResEx : DuelResult :=
  (duelStats duelAggs duelMs "1" "2").getD ⟨emptyAgg "" "", emptyAgg "" "", 0, 0, []⟩

/-- Balancer data: aggregates with one match and rating 0. -/
def balAgg (sid nm : String) : AggregatedPlayerStats := { emptyAgg sid nm with «matches» := 1 }

def balPlayers : List AggregatedPlayerStats :=
  [balAgg "1" "p1", balAgg "2" "p2", balAgg "3" "p3", balAgg "4" "p4",
   balAgg "5" "p5", balAgg "6" "p6", balAgg "7" "p7", balAgg "8" "p8"]

def balLobby4 : List String := ["1", "2", "3", "4"]

def balLobby3 : List String := ["1", "2", "3"]

def balLobby8 : List String := ["1", "2", "3", "4", "5", "6", "7", "8"]

def noAssign : String → Option Assignment := fun _ => none

def pinAssign : String → Option Assignment :=
  fun id => if id = "2" then some Assignment.team1 else none

def balPairPin : List AggregatedPlayerStats × List AggregatedPlayerStats :=
  (generateTeams balPlayers balLobby4 pinAssign).getD ([], [])

def balPair8 : List AggregatedPlayerStats × List AggregatedPlayerStats :=
  (generateTeams balPlayers balLobby8 noAssign).getD ([], [])

def balPair4 : List AggregatedPlayerStats × List AggregatedPlayerStats :=
  (generateTeams balPlayers balLobby4 noAssign).getD ([], [])

/-! ## Helper lemmas: the aggregation fold -/

@[simp]
theorem addPlayer_steam_id (a : AggregatedPlayerStats) (p : PlayerStats) :
    (addPlayer a p).steam_id = a.steam_id := rfl

@[simp]
theorem addPlayer_name (a : AggregatedPlayerStats) (p : PlayerStats) :
    (addPlayer a p).name = p.name := rfl

@[simp]
theorem addPlayer_matches (a : AggregatedPlayerStats) (p : PlayerStats) :
    (addPlayer a p).«matches» = a.«matches» + 1 := rfl

theorem addPlayer_emptyAgg_name (sid nm nm' : String) (p : PlayerStats) :
    addPlayer (emptyAgg sid nm) p = addPlayer (emptyAgg sid nm') p := rfl

@[simp]
theorem alookup_nil {β : Type} (id : String) : alookup id ([] : List (String × β)) = none := rfl

@[simp]
theorem alookup_cons {β : Type} (id k : String) (v : β) (rest : List (String × β)) :
    alookup id ((k, v) :: rest) = if k = id then some v else alookup id rest := rfl

theorem alookup_updateMap (l : List (String × AggregatedPlayerStats)) (sid : String)
    (p : PlayerStats) (id : String) :
    alookup id (updateMap l sid p) =
      if sid = id then some (addPlayer ((alookup id l).getD (seedAgg id)) p)
      else alookup id l := by
  induction l with
  | nil =>
      by_cases h : sid = id
      · subst h
        simp only [updateMap, alookup_cons, alookup_nil, if_pos rfl, Option.getD_none, seedAgg]
        rw [addPlayer_emptyAgg_name]
      · simp [updateMap, h]
  | cons kv rest ih =>
      obtain ⟨k, v⟩ := kv
      by_cases hk : k = sid
      · subst hk
        by_cases h : k = id
        · subst h
          simp [updateMap]
        · simp [updateMap, h]
      · by_cases h : k = id
        · subst h
          simp [updateMap, hk, Ne.symm hk]
        · simp [updateMap, hk, h, ih]

theorem alookup_foldl_aggStep (ps : List PlayerStats) (acc : List (String × AggregatedPlayerStats))
    (id : String) :
    alookup id (ps.foldl aggStep acc) =
      if (ps.filter (fun p => p.steam_id.toStr == id)).isEmpty then alookup id acc
      else some ((ps.filter (fun p => p.steam_id.toStr == id)).foldl addPlayer
        ((alookup id acc).getD (seedAgg id))) := by
  induction ps generalizing acc with
  | nil => simp
  | cons p rest ih =>
      by_cases h : p.steam_id.toStr = id
      · have hstep : alookup id (aggStep acc p)
            = some (addPlayer ((alookup id acc).getD (seedAgg id)) p) := by
          simpa [aggStep, h] using alookup_updateMap acc p.steam_id.toStr p id
        simp only [List.foldl_cons, List.filter_cons, h]
        rw [ih]
        by_cases hrest : (rest.filter (fun p => p.steam_id.toStr == id)).isEmpty
        · rw [if_pos hrest, hstep, List.isEmpty_iff.mp hrest]
          simp
        · rw [if_neg hrest, hstep]
          simp [hrest]
      · have hstep : alookup id (aggStep acc p) = alookup id acc := by
          simpa [aggStep, h] using alookup_updateMap acc p.steam_id.toStr p id
        simp only [List.foldl_cons, List.filter_cons]
        rw [ih, hstep]
        simp [h]

theorem aggMap_foldl_flatMap (ms : List Match) (acc : List (String × AggregatedPlayerStats)) :
    ms.foldl (fun acc m => m.data.foldl aggStep acc) acc
      = (ms.flatMap Match.data).foldl aggStep acc := by
  induction ms generalizing acc with
  | nil => rfl
  | cons m rest ih => simp [List.flatMap_cons, List.foldl_append, ih]

theorem alookup_aggMap (ms : List Match) (id : String) :
    alookup id (aggMap ms) =
      if (occurrences ms id).isEmpty then none
      else some ((occurrences ms id).foldl addPlayer (seedAgg id)) := by
  unfold aggMap occurrences
  rw [aggMap_foldl_flatMap, alookup_foldl_aggStep]
  simp

theorem keysOK_updateMap (l : List (String × AggregatedPlayerStats)) (sid : String)
    (p : PlayerStats) (h : keysOK l) : keysOK (updateMap l sid p) := by
  induction l with
  | nil =>
      intro kv hkv
      simp [updateMap] at hkv
      subst hkv
      simp [emptyAgg]
  | cons kv₀ rest ih =>
      obtain ⟨k, v⟩ := kv₀
      have hhead : v.steam_id = k := h (k, v) (by simp)
      have htail : keysOK rest := fun kv hkv => h kv (by simp [hkv])
      by_cases hk : k = sid
      · subst hk
        intro kv hkv
        simp [updateMap] at hkv
        rcases hkv with hkv | hkv
        · subst hkv; simpa using hhead
        · exact htail kv hkv
      · intro kv hkv
        simp [updateMap, hk] at hkv
        rcases hkv with hkv | hkv
        · subst hkv; simpa using hhead
        · exact ih htail kv hkv

theorem keysOK_foldl_aggStep (ps : List PlayerStats) (acc : List (String × AggregatedPlayerStats))
    (h : keysOK acc) : keysOK (ps.foldl aggStep acc) := by
  induction ps generalizing acc with
  | nil => exact h
  | cons p rest ih => exact ih _ (keysOK_updateMap acc p.steam_id.toStr p h)

theorem keysOK_aggMap (ms : List Match) : keysOK (aggMap ms) := by
  unfold aggMap
  rw [aggMap_foldl_flatMap]
  exact keysOK_foldl_aggStep _ _ (fun kv hkv => by simp at hkv)

theorem find?_map_snd (l : List (String × AggregatedPlayerStats)) (id : String) (h : keysOK l) :
    (l.map Prod.snd).find? (fun a => a.steam_id == id) = alookup id l := by
  induction l with
  | nil => rfl
  | cons kv rest ih =>
      obtain ⟨k, v⟩ := kv
      have hhead : v.steam_id = k := h (k, v) (by simp)
      have htail : keysOK rest := fun kv hkv => h kv (by simp [hkv])
      by_cases hk : k = id
      · subst hk
        simp [List.find?_cons, hhead]
      · simp [List.find?_cons, hhead, hk, ih htail]

theorem aggLookup_eq_alookup (ms : List Match) (id : String) :
    aggLookup ms id = alookup id (aggMap ms) := by
  unfold aggLookup aggregatePlayerStats
  exact find?_map_snd _ _ (keysOK_aggMap ms)

theorem mapKeys_updateMap (l : List (String × AggregatedPlayerStats)) (sid : String)
    (p : PlayerStats) :
    mapKeys (updateMap l sid p) = if sid ∈ mapKeys l then mapKeys l else mapKeys l ++ [sid] := by
  induction l with
  | nil => simp [updateMap, mapKeys]
  | cons kv rest ih =>
      obtain ⟨k, v⟩ := kv
      by_cases hk : k = sid
      · subst hk
        simp [updateMap, mapKeys]
      · simp only [updateMap, if_neg hk, mapKeys, List.map_cons, List.mem_cons]
        have : ¬ sid = k := fun h => hk h.symm
        by_cases hmem : sid ∈ mapKeys rest
        · simp [mapKeys] at hmem
          simp [hmem, mapKeys] at ih ⊢
          simp [ih, this]
        · simp [mapKeys] at hmem
          simp [hmem, mapKeys] at ih ⊢
          simp [ih, this]

theorem nodup_mapKeys_updateMap (l : List (String × AggregatedPlayerStats)) (sid : String)
    (p : PlayerStats) (h : (mapKeys l).Nodup) : (mapKeys (updateMap l sid p)).Nodup := by
  rw [mapKeys_updateMap]
  by_cases hmem : sid ∈ mapKeys l
  · simpa [hmem] using h
  · simp [hmem, List.nodup_append, h]

theorem nodup_mapKeys_aggMap (ms : List Match) : (mapKeys (aggMap ms)).Nodup := by
  unfold aggMap
  rw [aggMap_foldl_flatMap]
  generalize ms.flatMap Match.data = ps
  have h : ∀ (ps : List PlayerStats) (acc : List (String × AggregatedPlayerStats)),
      (mapKeys acc).Nodup → (mapKeys (ps.foldl aggStep acc)).Nodup := by
    intro ps
    induction ps with
    | nil => intro acc h; exact h
    | cons p rest ih =>
        intro acc hacc
        exact ih _ (nodup_mapKeys_updateMap acc p.steam_id.toStr p hacc)
  exact h ps [] (by simp [mapKeys])

theorem alookup_none_iff_not_mem {β : Type} (id : String) (l : List (String × β)) :
    alookup id l = none ↔ id ∉ l.map Prod.fst := by
  induction l with
  | nil => simp
  | cons kv rest ih =>
      obtain ⟨k, v⟩ := kv
      by_cases hk : k = id
      · subst hk; simp
      · simp [hk, ih, (Ne.symm hk : id ≠ k)]

theorem countP_map_snd (l : List (String × AggregatedPlayerStats)) (id : String) (h : keysOK l) :
    (l.map Prod.snd).countP (fun a => a.steam_id == id) = (mapKeys l).count id := by
  induction l with
  | nil => rfl
  | cons kv rest ih =>
      obtain ⟨k, v⟩ := kv
      have hhead : v.steam_id = k := h (k, v) (by simp)
      have htail : keysOK rest := fun kv hkv => h kv (by simp [hkv])
      by_cases hk : k = id
      · subst hk
        simp [List.countP_cons, hhead, ih htail, mapKeys, List.count_cons]
      · simp [List.countP_cons, hhead, hk, ih htail, mapKeys, List.count_cons,
          (Ne.symm hk : id ≠ k)]

theorem foldl_addPlayer_field {M : Type} [AddCommMonoid M] (f : AggregatedPlayerStats → M)
    (g : PlayerStats → M) (hf : ∀ a p, f (addPlayer a p) = f a + g p) :
    ∀ (os : List PlayerStats) (a : AggregatedPlayerStats),
      f (os.foldl addPlayer a) = f a + (os.map g).sum := by
  intro os
  induction os with
  | nil => intro a; simp
  | cons p rest ih => intro a; simp [ih, hf, add_assoc]

theorem foldl_addPlayer_matches :
    ∀ (os : List PlayerStats) (a : AggregatedPlayerStats),
      (os.foldl addPlayer a).«matches» = a.«matches» + os.length := by
  intro os
  induction os with
  | nil => intro a; simp
  | cons p rest ih =>
      intro a
      simp only [List.foldl_cons, ih, addPlayer_matches, List.length_cons]
      omega

theorem foldl_addPlayer_steam_id :
    ∀ (os : List PlayerStats) (a : AggregatedPlayerStats),
      (os.foldl addPlayer a).steam_id = a.steam_id := by
  intro os
  induction os with
  | nil => intro a; rfl
  | cons p rest ih => intro a; simp [ih]

theorem foldl_addPlayer_name :
    ∀ (os : List PlayerStats) (a : AggregatedPlayerStats),
      (os.foldl addPlayer a).name = ((os.map PlayerStats.name).getLast?).getD a.name := by
  intro os
  induction os with
  | nil => intro a; simp
  | cons p rest ih =>
      intro a
      cases rest with
      | nil => simp [ih]
      | cons q tail =>
          have hih := ih (addPlayer a p)
          simp only [List.foldl_cons] at hih ⊢
          rw [hih]
          simp only [List.map_cons]
          cases h : (q.name :: List.map PlayerStats.name tail).getLast? with
          | none => simp at h
          | some x => simp [h]

/-- The aggregate an id receives is the `addPlayer`-fold of its occurrences. -/
theorem aggLookup_characterization (ms : List Match) (id : String) :
    aggLookup ms id =
      if (occurrences ms id).isEmpty then none
      else some ((occurrences ms id).foldl addPlayer (seedAgg id)) := by
  rw [aggLookup_eq_alookup, alookup_aggMap]

/-- C4: for every list of match records, aggregation produces exactly one
aggregate per distinct string-normalized steam id; its `matches` field counts
that id's participant occurrences; every counting stat is the sum over those
occurrences, with absent trade-kill and clutch-bracket fields counted as 0;
`clutches_won` is the sum of the five clutch brackets; and `name` is the name
of the last occurrence in fold order. -/
theorem C4_aggregation (ms : List Match) (id : String) :
    ((aggregatePlayerStats ms).countP (fun a => a.steam_id == id)
        = if occurrences ms id = [] then 0 else 1)
    ∧ (aggLookup ms id = none ↔ occurrences ms id = [])
    ∧ ∀ a, aggLookup ms id = some a →
        a.steam_id = id
        ∧ a.«matches» = (occurrences ms id).length
        ∧ a.kills = ((occurrences ms id).map PlayerStats.kills).sum
        ∧ a.deaths = ((occurrences ms id).map PlayerStats.deaths).sum
        ∧ a.assists = ((occurrences ms id).map PlayerStats.assists).sum
        ∧ a.rounds_played = ((occurrences ms id).map PlayerStats.rounds_played).sum
        ∧ a.damage_total = ((occurrences ms id).map PlayerStats.damage_total).sum
        ∧ a.hltv_3_0_score = ((occurrences ms id).map PlayerStats.hltv_3_0_score).sum
        ∧ a.sniper_kills = ((occurrences ms id).map PlayerStats.sniper_kills).sum
        ∧ a.utility_damage = ((occurrences ms id).map PlayerStats.utility_damage).sum
        ∧ a.flashes_thrown = ((occurrences ms id).map PlayerStats.flashes_thrown).sum
        ∧ a.opening_kills = ((occurrences ms id).map PlayerStats.opening_kills).sum
        ∧ a.opening_deaths = ((occurrences ms id).map PlayerStats.opening_deaths).sum
        ∧ a.opening_attempts = ((occurrences ms id).map PlayerStats.opening_attempts).sum
        ∧ a.trade_kills = ((occurrences ms id).map (fun p => p.trade_kills.getD 0)).sum
        ∧ a.clutches_won = ((occurrences ms id).map clutchSum).sum
        ∧ ((occurrences ms id).map PlayerStats.name).getLast? = some a.name := by
  have hchar := aggLookup_characterization ms id
  refine ⟨?_, ?_, ?_⟩
  · rw [show aggregatePlayerStats ms = (aggMap ms).map Prod.snd from rfl,
      countP_map_snd _ _ (keysOK_aggMap ms)]
    have hnone := alookup_none_iff_not_mem id (aggMap ms)
    rw [alookup_aggMap] at hnone
    by_cases h : occurrences ms id = []
    · rw [if_pos h]
      have hnm : id ∉ (aggMap ms).map Prod.fst := hnone.mp (by simp [h])
      exact List.count_eq_zero_of_not_mem hnm
    · rw [if_neg h]
      have hmem : id ∈ (aggMap ms).map Prod.fst := by
        by_contra hnm
        have := hnone.mpr hnm
        rw [if_neg (by simp [h])] at this
        exact Option.some_ne_none _ this
      exact List.count_eq_one_of_mem (nodup_mapKeys_aggMap ms) hmem
  · rw [hchar]
    by_cases h : occurrences ms id = []
    · simp [h]
    · simp [h, List.isEmpty_iff]
  · intro a ha
    rw [hchar] at ha
    by_cases h : occurrences ms id = []
    · rw [if_pos (by simp [h])] at ha
      exact absurd ha (Option.some_ne_none _).symm
    rw [if_neg (by simp [List.isEmpty_iff, h])] at ha
    injection ha with ha
    subst ha
    refine ⟨?_, ?_, ?_, ?_, ?_, ?_, ?_, ?_, ?_, ?_, ?_, ?_, ?_, ?_, ?_, ?_, ?_⟩
    · simpa [seedAgg, emptyAgg] using foldl_addPlayer_steam_id (occurrences ms id) (seedAgg id)
    · simpa [seedAgg, emptyAgg] using foldl_addPlayer_matches (occurrences ms id) (seedAgg id)
    · simpa [seedAgg, emptyAgg] using
        foldl_addPlayer_field (fun a => a.kills) PlayerStats.kills (fun a p => rfl)
          (occurrences ms id) (seedAgg id)
    · simpa [seedAgg, emptyAgg] using
        foldl_addPlayer_field (fun a => a.deaths) PlayerStats.deaths (fun a p => rfl)
          (occurrences ms id) (seedAgg id)
    · simpa [seedAgg, emptyAgg] using
        foldl_addPlayer_field (fun a => a.assists) PlayerStats.assists (fun a p => rfl)
          (occurrences ms id) (seedAgg id)
    · simpa [seedAgg, emptyAgg] using
        foldl_addPlayer_field (fun a => a.rounds_played) PlayerStats.rounds_played
          (fun a p => rfl) (occurrences ms id) (seedAgg id)
    · simpa [seedAgg, emptyAgg] using
        foldl_addPlayer_field (fun a => a.damage_total) PlayerStats.damage_total
          (fun a p => rfl) (occurrences ms id) (seedAgg id)
    · simpa [seedAgg, emptyAgg] using
        foldl_addPlayer_field (fun a => a.hltv_3_0_score) PlayerStats.hltv_3_0_score
          (fun a p => rfl) (occurrences ms id) (seedAgg id)
    · simpa [seedAgg, emptyAgg] using
        foldl_addPlayer_field (fun a => a.sniper_kills) PlayerStats.sniper_kills
          (fun a p => rfl) (occurrences ms id) (seedAgg id)
    · simpa [seedAgg, emptyAgg] using
        foldl_addPlayer_field (fun a => a.utility_damage) PlayerStats.utility_damage
          (fun a p => rfl) (occurrences ms id) (seedAgg id)
    · simpa [seedAgg, emptyAgg] using
        foldl_addPlayer_field (fun a => a.flashes_thrown) PlayerStats.flashes_thrown
          (fun a p => rfl) (occurrences ms id) (seedAgg id)
    · simpa [seedAgg, emptyAgg] using
        foldl_addPlayer_field (fun a => a.opening_kills) PlayerStats.opening_kills
          (fun a p => rfl) (occurrences ms id) (seedAgg id)
    · simpa [seedAgg, emptyAgg] using
        foldl_addPlayer_field (fun a => a.opening_deaths) PlayerStats.opening_deaths
          (fun a p => rfl) (occurrences ms id) (seedAgg id)
    · simpa [seedAgg, emptyAgg] using
        foldl_addPlayer_field (fun a => a.opening_attempts) PlayerStats.opening_attempts
          (fun a p => rfl) (occurrences ms id) (seedAgg id)
    · simpa [seedAgg, emptyAgg] using
        foldl_addPlayer_field (fun a => a.trade_kills) (fun p => p.trade_kills.getD 0)
          (fun a p => rfl) (occurrences ms id) (seedAgg id)
    · simpa [seedAgg, emptyAgg] using
        foldl_addPlayer_field (fun a => a.clutches_won) clutchSum (fun a p => rfl)
          (occurrences ms id) (seedAgg id)
    · have hname := foldl_addPlayer_name (occurrences ms id) (seedAgg id)
      cases hl : ((occurrences ms id).map PlayerStats.name).getLast? with
      | none =>
          rw [List.getLast?_eq_none_iff] at hl
          exact absurd (List.map_eq_nil_iff.mp hl) h
      | some x => rw [hname, hl, Option.getD_some]

/-- Witness for C4 on `msEx`: two matches merge under the normalized id `"1"`,
the clutch example `{1v1: 2, 1v2: 1}` contributes 3, and the name is the
latest one. -/
theorem C4_aggregation_witness :
    aggEx.«matches» = 2 ∧ aggEx.kills = 40 ∧ aggEx.trade_kills = 4
      ∧ aggEx.clutches_won = 3 ∧ aggEx.name = "Beta" := by
  obtain ⟨-, hm, hk, -, -, -, -, -, -, -, -, -, -, -, ht, hc, hn⟩ :=
    (C4_aggregation msEx "1").2.2 aggEx rfl
  refine ⟨?_, ?_, ?_, ?_, ?_⟩
  · rw [hm]; decide
  · rw [hk]; decide
  · rw [ht]; decide
  · rw [hc]; decide
  · have hval : ((occurrences msEx "1").map PlayerStats.name).getLast? = some "Beta" := by decide
    rw [hval] at hn
    exact (Option.some_injective _ hn).symm

/-! ## Helper lemmas: permutation invariance -/

theorem stripName_foldl_perm (os₁ os₂ : List PlayerStats) (hp : os₁.Perm os₂)
    (a : AggregatedPlayerStats) :
    stripName (os₁.foldl addPlayer a) = stripName (os₂.foldl addPlayer a) := by
  have hsum : ∀ {M : Type} [inst : AddCommMonoid M] (f : AggregatedPlayerStats → M)
      (g : PlayerStats → M), (∀ a p, f (addPlayer a p) = f a + g p) →
      f (os₁.foldl addPlayer a) = f (os₂.foldl addPlayer a) := by
    intro M inst f g hf
    rw [foldl_addPlayer_field f g hf, foldl_addPlayer_field f g hf, (hp.map g).sum_eq]
  have hlen : os₁.length = os₂.length := hp.length_eq
  apply AggregatedPlayerStats.ext
  · simp [stripName, foldl_addPlayer_steam_id]
  · simp [stripName]
  · simp [stripName, foldl_addPlayer_matches, hlen]
  · exact hsum (fun a => a.kills) PlayerStats.kills (fun a p => rfl)
  · exact hsum (fun a => a.deaths) PlayerStats.deaths (fun a p => rfl)
  · exact hsum (fun a => a.assists) PlayerStats.assists (fun a p => rfl)
  · exact hsum (fun a => a.rounds_played) PlayerStats.rounds_played (fun a p => rfl)
  · exact hsum (fun a => a.damage_total) PlayerStats.damage_total (fun a p => rfl)
  · exact hsum (fun a => a.hltv_3_0_score) PlayerStats.hltv_3_0_score (fun a p => rfl)
  · exact hsum (fun a => a.sniper_kills) PlayerStats.sniper_kills (fun a p => rfl)
  · exact hsum (fun a => a.utility_damage) PlayerStats.utility_damage (fun a p => rfl)
  · exact hsum (fun a => a.flashes_thrown) PlayerStats.flashes_thrown (fun a p => rfl)
  · exact hsum (fun a => a.opening_kills) PlayerStats.opening_kills (fun a p => rfl)
  · exact hsum (fun a => a.opening_deaths) PlayerStats.opening_deaths (fun a p => rfl)
  · exact hsum (fun a => a.opening_attempts) PlayerStats.opening_attempts (fun a p => rfl)
  · exact hsum (fun a => a.trade_kills) (fun p => p.trade_kills.getD 0) (fun a p => rfl)
  · exact hsum (fun a => a.clutches_won) clutchSum (fun a p => rfl)

theorem occurrences_perm (ms₁ ms₂ : List Match) (hp : ms₁.Perm ms₂) (id : String) :
    (occurrences ms₁ id).Perm (occurrences ms₂ id) :=
  (hp.flatMap_right Match.data).filter _

/-- C8: aggregation is a pure function (same input, identical output) and,
modulo the latest-wins `name`, the per-player aggregate is invariant under
permutation of the match list. -/
theorem C8_aggregation_determinism (ms₁ ms₂ : List Match) (hp : ms₁.Perm ms₂) :
    aggregatePlayerStats ms₁ = aggregatePlayerStats ms₁
    ∧ ∀ id, (aggLookup ms₁ id).map stripName = (aggLookup ms₂ id).map stripName := by
  refine ⟨rfl, fun id => ?_⟩
  have hocc := occurrences_perm ms₁ ms₂ hp id
  rw [aggLookup_characterization, aggLookup_characterization]
  by_cases h : occurrences ms₁ id = []
  · have h2 : occurrences ms₂ id = [] := by
      have := hocc.length_eq
      rw [h] at this
      exact List.length_eq_zero.mp this.symm
    simp [h, h2]
  · have h2 : occurrences ms₂ id ≠ [] := by
      intro hnil
      have := hocc.length_eq
      rw [hnil] at this
      exact h (List.length_eq_zero.mp this)
    rw [if_neg (by simp [List.isEmpty_iff, h]), if_neg (by simp [List.isEmpty_iff, h2])]
    exact congrArg some (stripName_foldl_perm _ _ hocc (seedAgg id))

/-- Witness for C8: swapping the two matches of `msEx` leaves the aggregate
for id `"1"` unchanged up to its display name. -/
theorem C8_aggregation_determinism_witness :
    (aggLookup msEx "1").map stripName = (aggLookup msExSwapped "1").map stripName :=
  (C8_aggregation_determinism msEx msExSwapped (List.Perm.swap matchB matchA [])).2 "1"

/-- C7: for an aggregated player, the rate stats are the spec's ratios —
average rating is the summed per-match rating scores over matches played,
KPR/DPR/APR/ADR divide by `rounds_played` — and K/D is `kills/deaths` when
`deaths > 0`, falling back to the raw kill count when `deaths = 0`. -/
theorem C7_rate_stats (ms : List Match) (id : String) (a : AggregatedPlayerStats)
    (h : aggLookup ms id = some a) :
    (0 < a.«matches» →
      profileRating a = ((occurrences ms id).map PlayerStats.hltv_3_0_score).sum
        / ((occurrences ms id).length : ℚ))
    ∧ (0 < a.rounds_played →
        profileKPR a = (a.kills : ℚ) / (a.rounds_played : ℚ)
        ∧ profileDPR a = (a.deaths : ℚ) / (a.rounds_played : ℚ)
        ∧ profileAPR a = (a.assists : ℚ) / (a.rounds_played : ℚ)
        ∧ profileADR a = a.damage_total / (a.rounds_played : ℚ))
    ∧ (0 < a.deaths → profileKD a = (a.kills : ℚ) / (a.deaths : ℚ))
    ∧ (a.deaths = 0 → profileKD a = (a.kills : ℚ))
    ∧ tableKD a = profileKD a := by
  have hchar := aggLookup_characterization ms id
  rw [hchar] at h
  by_cases hemp : (occurrences ms id).isEmpty
  · rw [if_pos hemp] at h
    exact absurd h (Option.some_ne_none _).symm
  rw [if_neg hemp] at h
  injection h with h
  refine ⟨fun hm => ?_, fun hr => ⟨?_, ?_, ?_, ?_⟩, fun hd => ?_, fun hd => ?_, ?_⟩
  · have hhltv : a.hltv_3_0_score = ((occurrences ms id).map PlayerStats.hltv_3_0_score).sum := by
      rw [← h]
      simpa [seedAgg, emptyAgg] using
        foldl_addPlayer_field (fun a => a.hltv_3_0_score) PlayerStats.hltv_3_0_score
          (fun a p => rfl) (occurrences ms id) (seedAgg id)
    have hm' : a.«matches» = (occurrences ms id).length := by
      rw [← h]
      simpa [seedAgg, emptyAgg] using foldl_addPlayer_matches (occurrences ms id) (seedAgg id)
    rw [profileRating, if_pos hm, hhltv, hm']
  · rw [profileKPR, if_pos hr]
  · rw [profileDPR, if_pos hr]
  · rw [profileAPR, if_pos hr]
  · rw [profileADR, if_pos hr]
  · rw [profileKD, if_pos hd]
  · rw [profileKD, if_neg (by omega)]
  · rfl

/-- Witness for C7 on `msExKD` (10 kills, 0 deaths): K/D is the raw kill
count 10, not an error value. -/
theorem C7_rate_stats_witness : profileKD aggExKD = 10 ∧ tableKD aggExKD = 10 := by
  obtain ⟨-, -, -, hkd, htab⟩ := C7_rate_stats msExKD "9" aggExKD rfl
  have h0 : aggExKD.deaths = 0 := by decide
  have hk : aggExKD.kills = 10 := by decide
  have h1 : profileKD aggExKD = 10 := by
    rw [hkd h0, hk]; norm_num
  exact ⟨h1, by rw [htab, h1]⟩

/-! ## Helper lemmas: the duel fold -/

theorem duelFold_char (id1 id2 : String) :
    ∀ (ms : List Match) (st : Nat × Nat × List DuelHistoryEntry),
      (ms.foldl (duelStep id1 id2) st).1
          = st.1 + ((ms.filterMap (matchContrib id1 id2)).map Prod.fst).sum
      ∧ (ms.foldl (duelStep id1 id2) st).2.1
          = st.2.1 + ((ms.filterMap (matchContrib id1 id2)).map Prod.snd).sum
      ∧ (ms.foldl (duelStep id1 id2) st).2.2
          = st.2.2 ++ ms.filterMap (matchHistEntry id1 id2) := by
  intro ms
  induction ms with
  | nil => intro st; simp
  | cons m rest ih =>
      intro st
      simp only [List.foldl_cons, List.filterMap_cons]
      cases hf1 : m.data.find? (fun p => p.steam_id.toStr == id1) with
      | none => simp [duelStep, matchContrib, matchHistEntry, hf1, ih]
      | some p1Data =>
          cases hf2 : m.data.find? (fun p => p.steam_id.toStr == id2) with
          | none => simp [duelStep, matchContrib, matchHistEntry, hf1, hf2, ih]
          | some p2Data =>
              cases hd1 : alookup id2 p1Data.duels with
              | some d =>
                  simp [duelStep, matchContrib, matchHistEntry, hf1, hf2, hd1, ih, add_assoc]
              | none =>
                  cases hd2 : alookup id1 p2Data.duels with
                  | some d =>
                      simp [duelStep, matchContrib, matchHistEntry, hf1, hf2, hd1, hd2, ih,
                        add_assoc]
                  | none =>
                      simp [duelStep, matchContrib, matchHistEntry, hf1, hf2, hd1, hd2, ih]

theorem insertDesc_perm {α : Type} (key : α → ℚ) (x : α) (l : List α) :
    (insertDesc key x l).Perm (x :: l) := by
  induction l with
  | nil => exact List.Perm.refl _
  | cons y ys ih =>
      unfold insertDesc
      by_cases h : key y < key x
      · rw [if_pos h]
      · rw [if_neg h]
        exact (ih.cons y).trans (List.Perm.swap x y ys)

theorem insSortDesc_foldl_perm {α : Type} (key : α → ℚ) :
    ∀ (l acc : List α),
      (l.foldl (fun acc x => insertDesc key x acc) acc).Perm (acc ++ l) := by
  intro l
  induction l with
  | nil => intro acc; simp
  | cons x xs ih =>
      intro acc
      refine (ih (insertDesc key x acc)).trans ?_
      refine (((insertDesc_perm key x acc).append_right xs).trans ?_)
      rw [List.cons_append]
      exact List.perm_middle.symm

theorem insSortDesc_perm {α : Type} (key : α → ℚ) (l : List α) :
    (insSortDesc key l).Perm l := by
  simpa using insSortDesc_foldl_perm key l []

/-- C2: for every match collection and pair of ids, duel reconciliation sums
per-match contributions only over matches where both players appear, and the
per-match contribution prefers A's own duel entry (`(kills, deaths)`), falls
back to B's entry read symmetrically (`(deaths, kills)`), and is nothing when
neither side recorded the duel. -/
theorem C2_duel_reconciliation (allPlayers : List AggregatedPlayerStats) (ms : List Match)
    (id1 id2 : String) (r : DuelResult) (h : duelStats allPlayers ms id1 id2 = some r) :
    r.p1Kills = ((ms.filterMap (matchContrib id1 id2)).map Prod.fst).sum
    ∧ r.p2Kills = ((ms.filterMap (matchContrib id1 id2)).map Prod.snd).sum
    ∧ r.history.Perm (ms.filterMap (matchHistEntry id1 id2))
    ∧ (∀ m p1Data p2Data,
        m.data.find? (fun p => p.steam_id.toStr == id1) = some p1Data →
        m.data.find? (fun p => p.steam_id.toStr == id2) = some p2Data →
          (∀ d, alookup id2 p1Data.duels = some d →
            matchContrib id1 id2 m = some (d.kills, d.deaths))
          ∧ (alookup id2 p1Data.duels = none →
              (∀ d, alookup id1 p2Data.duels = some d →
                matchContrib id1 id2 m = some (d.deaths, d.kills))
              ∧ (alookup id1 p2Data.duels = none → matchContrib id1 id2 m = none)))
    ∧ (∀ m, (m.data.find? (fun p => p.steam_id.toStr == id1) = none
          ∨ m.data.find? (fun p => p.steam_id.toStr == id2) = none) →
        matchContrib id1 id2 m = none) := by
  obtain ⟨hk1, hk2, hh⟩ := duelFold_char id1 id2 ms (0, 0, [])
  unfold duelStats at h
  cases hf1 : allPlayers.find? (fun p => p.steam_id == id1) with
  | none => rw [hf1] at h; simp at h
  | some p1 =>
      cases hf2 : allPlayers.find? (fun p => p.steam_id == id2) with
      | none => rw [hf1, hf2] at h; simp at h
      | some p2 =>
          rw [hf1, hf2] at h
          injection h with h
          subst h
          refine ⟨by simpa using hk1, by simpa using hk2, ?_, ?_, ?_⟩
          · refine (insSortDesc_perm _ _).trans ?_
            rw [hh]
            simp
          · intro m p1Data p2Data hm1 hm2
            refine ⟨fun d hd => ?_, fun hd => ⟨fun d' hd' => ?_, fun hd' => ?_⟩⟩
            · simp [matchContrib, hm1, hm2, hd]
            · simp [matchContrib, hm1, hm2, hd, hd']
            · simp [matchContrib, hm1, hm2, hd, hd']
          · intro m hm
            rcases hm with hm | hm
            · simp [matchContrib, hm]
            · cases hf : m.data.find? (fun p => p.steam_id.toStr == id1) with
              | none => simp [matchContrib, hf]
              | some q => simp [matchContrib, hf, hm]

/-- Witness for C2 on the spec's fallback example: A has no entry for B, B
recorded `{kills: 3, deaths: 1}` against A, so the reconciled totals are
`aKills = 1`, `bKills = 3`. -/
theorem C2_duel_reconciliation_witness : duelResEx.p1Kills = 1 ∧ duelResEx.p2Kills = 3 := by
  obtain ⟨h1, h2, -, -, -⟩ := C2_duel_reconciliation duelAggs duelMs "1" "2" duelResEx rfl
  refine ⟨?_, ?_⟩
  · rw [h1]; decide
  · rw [h2]; decide

/-- C9: if either selected id does not resolve to an aggregate entry, duel
reconciliation yields `null` rather than an error. -/
theorem C9_unresolved_identity (allPlayers : List AggregatedPlayerStats) (ms : List Match)
    (id1 id2 : String)
    (h : allPlayers.find? (fun p => p.steam_id == id1) = none
      ∨ allPlayers.find? (fun p => p.steam_id == id2) = none) :
    duelStats allPlayers ms id1 id2 = none := by
  unfold duelStats
  rcases h with h | h
  · rw [h]
  · rw [h]
    cases allPlayers.find? (fun p => p.steam_id == id1) <;> rfl

/-- Witness for C9: reconciling against an empty aggregate collection yields
`none`. -/
theorem C9_unresolved_identity_witness : duelStats [] duelMs "1" "2" = none :=
  C9_unresolved_identity [] duelMs "1" "2" (Or.inl rfl)

/-- C6: role classification is Sniper exactly when sniper kills strictly
exceed 40% of total kills; zero total kills classifies as Rifler; the
100/40 boundary is Rifler and 100/41 is Sniper. -/
theorem C6_role_classification :
    (∀ k s : Nat, getWeaponRoleCore k s
        = if 0 < k ∧ 40 * k < 100 * s then Role.Sniper else Role.Rifler)
    ∧ (∀ s, getWeaponRoleCore 0 s = Role.Rifler)
    ∧ getWeaponRoleCore 100 40 = Role.Rifler
    ∧ getWeaponRoleCore 100 41 = Role.Sniper
    ∧ (∀ p : PlayerStats, getWeaponRole p = getWeaponRoleCore p.kills p.sniper_kills)
    ∧ (∀ a : AggregatedPlayerStats,
        getWeaponRoleAgg a = getWeaponRoleCore a.kills a.sniper_kills) := by
  have hmain : ∀ k s : Nat, getWeaponRoleCore k s
      = if 0 < k ∧ 40 * k < 100 * s then Role.Sniper else Role.Rifler := by
    intro k s
    unfold getWeaponRoleCore
    rcases Nat.eq_zero_or_pos k with hk | hk
    · subst hk; simp
    · rw [if_neg (by omega)]
      have hkq : (0 : ℚ) < (k : ℚ) := by exact_mod_cast hk
      have hiff : ((s : ℚ) / (k : ℚ)) * 100 > 40 ↔ 40 * k < 100 * s := by
        rw [gt_iff_lt, div_mul_eq_mul_div, lt_div_iff₀ hkq]
        constructor
        · intro hlt
          have h2 : (40 : ℚ) * (k : ℚ) < (100 : ℚ) * (s : ℚ) := by linarith
          exact_mod_cast h2
        · intro hlt
          have h2 : (40 : ℚ) * (k : ℚ) < (100 : ℚ) * (s : ℚ) := by exact_mod_cast hlt
          linarith
      by_cases hc : ((s : ℚ) / (k : ℚ)) * 100 > 40
      · rw [if_pos hc, if_pos ⟨hk, hiff.mp hc⟩]
      · rw [if_neg hc, if_neg (fun hcon => hc (hiff.mpr hcon.2))]
  refine ⟨hmain, fun s => by rw [hmain]; simp, by rw [hmain]; decide, by rw [hmain]; decide,
    fun p => rfl, fun a => rfl⟩

/-- C1 fails on the code: `snipingScore` divides `sniper_kills` by `kills`
without a zero guard, so an aggregated player with 0 total kills (and hence
0 sniper kills) scores `NaN`, not 0. -/
theorem C1_zero_denominator_counterexample :
    snipingScore aggKillsZero = JSNum.nan ∧ snipingScore aggKillsZero ≠ JSNum.num 0 := by
  have h : snipingScore aggKillsZero = JSNum.nan := by
    simp [snipingScore, aggKillsZero, emptyAgg, calcScore, jdiv, jmul, jround, jmin]
  refine ⟨h, by rw [h]; simp⟩

/-- C1 (amended): only the guarded divisions return 0 on a zero denominator.
The sniping score is `NaN` when total kills is 0, the per-match ADR is `NaN`
(or `Infinity`) when `rounds_played = 0`, and the opening/trading/clutching/
utility scores are `NaN` when `matches = 0` (their numerators are then also
zero); the entry score, the aggregate rating and the aggregate per-round
stats do guard their denominators with 0, and K/D falls back to the raw kill
count. -/
theorem C1_zero_denominator_amended :
    (∀ a : AggregatedPlayerStats, a.kills = 0 → a.sniper_kills = 0 →
      snipingScore a = JSNum.nan)
    ∧ (∀ p : PlayerStats, p.rounds_played = 0 → p.damage_total = 0 →
      matchADR p = JSNum.nan)
    ∧ (∀ p : PlayerStats, p.rounds_played = 0 → 0 < p.damage_total →
      matchADR p = JSNum.inf)
    ∧ (∀ a : AggregatedPlayerStats, a.«matches» = 0 → a.opening_kills = 0 →
      openingScore a = JSNum.nan)
    ∧ (∀ a : AggregatedPlayerStats, a.«matches» = 0 → a.trade_kills = 0 →
      tradingScore a = JSNum.nan)
    ∧ (∀ a : AggregatedPlayerStats, a.«matches» = 0 → a.clutches_won = 0 →
      clutchingScore a = JSNum.nan)
    ∧ (∀ a : AggregatedPlayerStats, a.«matches» = 0 → a.utility_damage = 0 →
      utilityScore a = JSNum.nan)
    ∧ (∀ a : AggregatedPlayerStats, a.opening_attempts = 0 → entryScore a = JSNum.num 0)
    ∧ (∀ a : AggregatedPlayerStats, a.«matches» = 0 → profileRating a = 0)
    ∧ (∀ a : AggregatedPlayerStats, a.rounds_played = 0 →
        profileADR a = 0 ∧ profileKPR a = 0 ∧ profileAPR a = 0 ∧ profileDPR a = 0)
    ∧ (∀ a : AggregatedPlayerStats, a.deaths = 0 → profileKD a = (a.kills : ℚ)) := by
  refine ⟨?_, ?_, ?_, ?_, ?_, ?_, ?_, ?_, ?_, ?_, ?_⟩
  · intro a h1 h2
    simp [snipingScore, h1, h2, calcScore, jdiv, jmul, jround, jmin]
  · intro p h1 h2
    simp [matchADR, h1, h2, jdiv]
  · intro p h1 h2
    simp [matchADR, h1, jdiv, h2, h2.ne']
  · intro a h1 h2
    simp [openingScore, h1, h2, calcScore, jdiv, jmul, jround, jmin]
  · intro a h1 h2
    simp [tradingScore, h1, h2, calcScore, jdiv, jmul, jround, jmin]
  · intro a h1 h2
    simp [clutchingScore, h1, h2, calcScore, jdiv, jmul, jround, jmin]
  · intro a h1 h2
    simp [utilityScore, h1, h2, calcScore, jdiv, jmul, jround, jmin]
  · intro a h1
    simp [entryScore, h1]
  · intro a h1
    simp [profileRating, h1]
  · intro a h1
    refine ⟨?_, ?_, ?_, ?_⟩ <;> simp [profileADR, profileKPR, profileAPR, profileDPR, h1]
  · intro a h1
    simp [profileKD, h1]

/-- Witness for the amended C1 at concrete inputs. -/
theorem C1_zero_denominator_amended_witness :
    snipingScore aggKillsZero = JSNum.nan
    ∧ matchADR recZeroRounds = JSNum.nan
    ∧ matchADR recZeroRoundsDmg = JSNum.inf
    ∧ openingScore aggNoMatches = JSNum.nan
    ∧ entryScore aggKillsZero = JSNum.num 0
    ∧ profileKD aggKillsZero = (aggKillsZero.kills : ℚ) := by
  refine ⟨C1_zero_denominator_amended.1 aggKillsZero rfl rfl,
    C1_zero_denominator_amended.2.1 recZeroRounds rfl rfl,
    C1_zero_denominator_amended.2.2.1 recZeroRoundsDmg rfl (by norm_num [recZeroRoundsDmg, mkRec]),
    C1_zero_denominator_amended.2.2.2.1 aggNoMatches rfl rfl,
    C1_zero_denominator_amended.2.2.2.2.2.2.2.1 aggKillsZero rfl,
    C1_zero_denominator_amended.2.2.2.2.2.2.2.2.2.2 aggKillsZero rfl⟩

/-! ## Helper lemmas: the stable descending sort -/

theorem insertDesc_sorted {α : Type} (key : α → ℚ) (x : α) (l : List α)
    (h : l.Pairwise (fun a b => key b ≤ key a)) :
    (insertDesc key x l).Pairwise (fun a b => key b ≤ key a) := by
  induction l with
  | nil => simp [insertDesc]
  | cons y ys ih =>
      obtain ⟨hy, hys⟩ := List.pairwise_cons.mp h
      unfold insertDesc
      by_cases hlt : key y < key x
      · rw [if_pos hlt]
        refine List.pairwise_cons.mpr ⟨?_, h⟩
        intro z hz
        rcases List.mem_cons.mp hz with rfl | hz'
        · exact le_of_lt hlt
        · exact le_trans (hy z hz') (le_of_lt hlt)
      · rw [if_neg hlt]
        refine List.pairwise_cons.mpr ⟨?_, ih hys⟩
        intro z hz
        have hz' := (insertDesc_perm key x ys).mem_iff.mp hz
        rcases List.mem_cons.mp hz' with rfl | hz'
        · exact le_of_not_lt hlt
        · exact hy z hz'

theorem insSortDesc_sorted {α : Type} (key : α → ℚ) (l : List α) :
    (insSortDesc key l).Pairwise (fun a b => key b ≤ key a) := by
  have h : ∀ (l acc : List α), acc.Pairwise (fun a b => key b ≤ key a) →
      (l.foldl (fun acc x => insertDesc key x acc) acc).Pairwise
        (fun a b => key b ≤ key a) := by
    intro l
    induction l with
    | nil => intro acc hacc; exact hacc
    | cons x xs ih => intro acc hacc; exact ih _ (insertDesc_sorted key x acc hacc)
  exact h l [] List.Pairwise.nil

theorem filter_insertDesc {α : Type} (key : α → ℚ) (q : ℚ) (x : α) (l : List α)
    (h : l.Pairwise (fun a b => key b ≤ key a)) :
    (insertDesc key x l).filter (fun p => decide (key p = q)) =
      if key x = q then l.filter (fun p => decide (key p = q)) ++ [x]
      else l.filter (fun p => decide (key p = q)) := by
  induction l with
  | nil => by_cases hx : key x = q <;> simp [insertDesc, hx]
  | cons y ys ih =>
      obtain ⟨hy, hys⟩ := List.pairwise_cons.mp h
      unfold insertDesc
      by_cases hlt : key y < key x
      · rw [if_pos hlt]
        by_cases hx : key x = q
        · have hall : ∀ z ∈ y :: ys, key z < q := by
            intro z hz
            rcases List.mem_cons.mp hz with rfl | hz'
            · rw [← hx]; exact hlt
            · exact lt_of_le_of_lt (hy z hz') (hx ▸ hlt)
          have hnil : (y :: ys).filter (fun p => decide (key p = q)) = [] := by
            rw [List.filter_eq_nil_iff]
            intro z hz
            simpa using ne_of_lt (hall z hz)
          rw [if_pos hx, hnil, List.filter_cons]
          simp [hx, hnil]
        · rw [if_neg hx, List.filter_cons]
          simp [hx]
      · rw [if_neg hlt, List.filter_cons, List.filter_cons, ih hys]
        by_cases hx : key x = q <;> by_cases hyq : key y = q <;> simp [hx, hyq]

theorem insSortDesc_stable {α : Type} (key : α → ℚ) (l : List α) (q : ℚ) :
    (insSortDesc key l).filter (fun p => decide (key p = q))
      = l.filter (fun p => decide (key p = q)) := by
  have h : ∀ (l acc : List α), acc.Pairwise (fun a b => key b ≤ key a) →
      (l.foldl (fun acc x => insertDesc key x acc) acc).filter (fun p => decide (key p = q))
        = acc.filter (fun p => decide (key p = q))
          ++ l.filter (fun p => decide (key p = q)) := by
    intro l
    induction l with
    | nil => intro acc hacc; simp
    | cons x xs ih =>
        intro acc hacc
        simp only [List.foldl_cons, List.filter_cons]
        rw [ih _ (insertDesc_sorted key x acc hacc), filter_insertDesc key q x acc hacc]
        by_cases hx : key x = q
        · simp [hx]
        · simp [hx]
  simpa using h l [] List.Pairwise.nil

/-! ## Helper lemmas: the balancer fold -/

theorem buildStep_eq (ts : Nat) (t1 t2 : List AggregatedPlayerStats)
    (c : AggregatedPlayerStats) :
    buildStep ts (t1, t2) c =
      if t1.length < ts ∧ (teamRating t1 ≤ teamRating t2 ∨ ts ≤ t2.length) then (t1 ++ [c], t2)
      else if t2.length < ts then (t1, t2 ++ [c]) else (t1, t2) := rfl

theorem buildFold_append (ts : Nat) :
    ∀ (pool t1 t2 : List AggregatedPlayerStats), ∃ e1 e2,
      pool.foldl (buildStep ts) (t1, t2) = (t1 ++ e1, t2 ++ e2) := by
  intro pool
  induction pool with
  | nil => intro t1 t2; exact ⟨[], [], by simp⟩
  | cons c rest ih =>
      intro t1 t2
      rw [List.foldl_cons, buildStep_eq]
      by_cases h1 : t1.length < ts ∧ (teamRating t1 ≤ teamRating t2 ∨ ts ≤ t2.length)
      · rw [if_pos h1]
        obtain ⟨e1, e2, he⟩ := ih (t1 ++ [c]) t2
        exact ⟨[c] ++ e1, e2, by rw [he, List.append_assoc]⟩
      · rw [if_neg h1]
        by_cases h2 : t2.length < ts
        · rw [if_pos h2]
          obtain ⟨e1, e2, he⟩ := ih t1 (t2 ++ [c])
          exact ⟨e1, [c] ++ e2, by rw [he, List.append_assoc]⟩
        · rw [if_neg h2]
          exact ih t1 t2

theorem buildFold_length (ts : Nat) :
    ∀ (pool t1 t2 : List AggregatedPlayerStats),
      t1.length + t2.length + pool.length ≤ 2 * ts →
      ((pool.foldl (buildStep ts) (t1, t2)).1.length
          + (pool.foldl (buildStep ts) (t1, t2)).2.length
        = t1.length + t2.length + pool.length)
      ∧ (pool.foldl (buildStep ts) (t1, t2)).1.length ≤ max t1.length ts
      ∧ (pool.foldl (buildStep ts) (t1, t2)).2.length ≤ max t2.length ts := by
  intro pool
  induction pool with
  | nil =>
      intro t1 t2 h
      exact ⟨by simp, Nat.le_max_left _ _, Nat.le_max_left _ _⟩
  | cons c rest ih =>
      intro t1 t2 h
      rw [List.foldl_cons, buildStep_eq]
      by_cases h1 : t1.length < ts ∧ (teamRating t1 ≤ teamRating t2 ∨ ts ≤ t2.length)
      · rw [if_pos h1]
        obtain ⟨ha, hb, hc⟩ := ih (t1 ++ [c]) t2 (by simp at h ⊢; omega)
        refine ⟨by rw [ha]; simp; omega, ?_, hc⟩
        calc (rest.foldl (buildStep ts) (t1 ++ [c], t2)).1.length
            ≤ max (t1 ++ [c]).length ts := hb
          _ = ts := by simp; omega
          _ ≤ max t1.length ts := le_max_right _ _
      · rw [if_neg h1]
        by_cases h2 : t2.length < ts
        · rw [if_pos h2]
          obtain ⟨ha, hb, hc⟩ := ih t1 (t2 ++ [c]) (by simp at h ⊢; omega)
          refine ⟨by rw [ha]; simp; omega, hb, ?_⟩
          calc (rest.foldl (buildStep ts) (t1, t2 ++ [c])).2.length
              ≤ max (t2 ++ [c]).length ts := hc
            _ = ts := by simp; omega
            _ ≤ max t2.length ts := le_max_right _ _
        · exfalso
          have ht2 : ts ≤ t2.length := Nat.le_of_not_lt h2
          have ht1 : ts ≤ t1.length := by
            by_contra hlt
            exact h1 ⟨Nat.lt_of_not_le hlt, Or.inr ht2⟩
          simp only [List.length_cons] at h
          omega

theorem buildFold_perm (ts : Nat) :
    ∀ (pool t1 t2 : List AggregatedPlayerStats),
      t1.length + t2.length + pool.length ≤ 2 * ts →
      ((pool.foldl (buildStep ts) (t1, t2)).1
          ++ (pool.foldl (buildStep ts) (t1, t2)).2).Perm
        ((t1 ++ t2) ++ pool) := by
  intro pool
  induction pool with
  | nil => intro t1 t2 h; simp
  | cons c rest ih =>
      intro t1 t2 h
      rw [List.foldl_cons, buildStep_eq]
      by_cases h1 : t1.length < ts ∧ (teamRating t1 ≤ teamRating t2 ∨ ts ≤ t2.length)
      · rw [if_pos h1]
        refine (ih (t1 ++ [c]) t2 (by simp at h ⊢; omega)).trans ?_
        have hstep : ((t1 ++ [c]) ++ t2).Perm ((t1 ++ t2) ++ [c]) := by
          rw [List.append_assoc, List.append_assoc]
          exact List.perm_append_comm.append_left t1
        refine (hstep.append_right rest).trans ?_
        rw [List.append_assoc, List.singleton_append]
      · rw [if_neg h1]
        by_cases h2 : t2.length < ts
        · rw [if_pos h2]
          refine (ih t1 (t2 ++ [c]) (by simp at h ⊢; omega)).trans ?_
          rw [← List.append_assoc, List.append_assoc, List.singleton_append]
        · exfalso
          have ht2 : ts ≤ t2.length := Nat.le_of_not_lt h2
          have ht1 : ts ≤ t1.length := by
            by_contra hlt
            exact h1 ⟨Nat.lt_of_not_le hlt, Or.inr ht2⟩
          simp only [List.length_cons] at h
          omega

/-- Members of the active roster are never benched. -/
theorem activeRoster_not_bench (allPlayers : List AggregatedPlayerStats) (lobby : List String)
    (assign : String → Option Assignment) :
    ∀ p ∈ activeRoster allPlayers lobby assign, assign p.steam_id ≠ some Assignment.bench := by
  intro p hp
  unfold activeRoster at hp
  obtain ⟨id, hid, hfind⟩ := List.mem_filterMap.mp hp
  have hid' := List.mem_filter.mp hid
  have hps : p.steam_id = id := by simpa using List.find?_some hfind
  rw [hps]
  simpa using hid'.2

/-- The three assignment classes of the active roster partition it. -/
theorem active_partition (allPlayers : List AggregatedPlayerStats) (lobby : List String)
    (assign : String → Option Assignment) :
    (((activeRoster allPlayers lobby assign).filter
        (fun p => decide (assign p.steam_id = some Assignment.team1))
      ++ (activeRoster allPlayers lobby assign).filter
        (fun p => decide (assign p.steam_id = some Assignment.team2)))
      ++ (activeRoster allPlayers lobby assign).filter
        (fun p => decide (assign p.steam_id = none))).Perm
      (activeRoster allPlayers lobby assign) := by
  set l := activeRoster allPlayers lobby assign with hl
  have hmem := activeRoster_not_bench allPlayers lobby assign
  rw [← hl] at hmem
  have hB : l.filter (fun p => decide (assign p.steam_id = some Assignment.team2))
      = (l.filter (fun p => !decide (assign p.steam_id = some Assignment.team1))).filter
          (fun p => decide (assign p.steam_id = some Assignment.team2)) := by
    rw [List.filter_filter]
    refine (List.filter_congr ?_).symm
    intro p hp
    by_cases hb : assign p.steam_id = some Assignment.team2 <;> simp [hb]
  have hC : l.filter (fun p => decide (assign p.steam_id = none))
      = (l.filter (fun p => !decide (assign p.steam_id = some Assignment.team1))).filter
          (fun p => !decide (assign p.steam_id = some Assignment.team2)) := by
    rw [List.filter_filter]
    refine List.filter_congr ?_
    intro p hp
    rcases hps : assign p.steam_id with _ | a
    · simp
    · cases a
      · simp
      · simp
      · exact absurd hps (hmem p hp)
  have hBC : (l.filter (fun p => decide (assign p.steam_id = some Assignment.team2))
      ++ l.filter (fun p => decide (assign p.steam_id = none))).Perm
      (l.filter (fun p => !decide (assign p.steam_id = some Assignment.team1))) := by
    rw [hB, hC]
    exact List.filter_append_perm _ _
  refine List.Perm.trans ?_
    (l.filter_append_perm (fun p => decide (assign p.steam_id = some Assignment.team1)))
  rw [List.append_assoc]
  exact hBC.append_left _

/-- Active-roster entries coming from a duplicate-free lobby are pairwise
distinct. -/
theorem activeRoster_nodup (allPlayers : List AggregatedPlayerStats) (lobby : List String)
    (assign : String → Option Assignment) (h : lobby.Nodup) :
    (activeRoster allPlayers lobby assign).Nodup := by
  unfold activeRoster
  refine (h.filter _).filterMap ?_
  intro a a' b hb hb'
  have h1 : b.steam_id = a := by simpa using List.find?_some (Option.mem_def.mp hb)
  have h2 : b.steam_id = a' := by simpa using List.find?_some (Option.mem_def.mp hb')
  rw [← h1, h2]

/-- C3: when generation succeeds, pinned members always land on their pinned
team; the result is exactly the greedy fold over the unpinned members from
the pinned teams with `teamSize = activeCount / 2`; the greedy step assigns a
candidate to team1 exactly when team1 has room and (its summed average
rating is at most team2's or team2 is already full), otherwise to team2 when
it has room; and the processed pool is the unpinned members in descending
average-rating order, a stable permutation of their original order. -/
theorem C3_balancer_greedy (allPlayers : List AggregatedPlayerStats) (lobby : List String)
    (assign : String → Option Assignment) (t1 t2 : List AggregatedPlayerStats)
    (h : generateTeams allPlayers lobby assign = some (t1, t2)) :
    (∀ p ∈ activeRoster allPlayers lobby assign,
        assign p.steam_id = some Assignment.team1 → p ∈ t1)
    ∧ (∀ p ∈ activeRoster allPlayers lobby assign,
        assign p.steam_id = some Assignment.team2 → p ∈ t2)
    ∧ ((t1, t2)
        = (insSortDesc avgRating ((activeRoster allPlayers lobby assign).filter
            (fun p => decide (assign p.steam_id = none)))).foldl
          (buildStep ((activeRoster allPlayers lobby assign).length / 2))
          ((activeRoster allPlayers lobby assign).filter
            (fun p => decide (assign p.steam_id = some Assignment.team1)),
           (activeRoster allPlayers lobby assign).filter
            (fun p => decide (assign p.steam_id = some Assignment.team2))))
    ∧ (∀ (u1 u2 : List AggregatedPlayerStats) (c : AggregatedPlayerStats),
        buildStep ((activeRoster allPlayers lobby assign).length / 2) (u1, u2) c
          = if u1.length < (activeRoster allPlayers lobby assign).length / 2
              ∧ (teamRating u1 ≤ teamRating u2
                ∨ (activeRoster allPlayers lobby assign).length / 2 ≤ u2.length)
            then (u1 ++ [c], u2)
            else if u2.length < (activeRoster allPlayers lobby assign).length / 2
            then (u1, u2 ++ [c]) else (u1, u2))
    ∧ (insSortDesc avgRating ((activeRoster allPlayers lobby assign).filter
          (fun p => decide (assign p.steam_id = none)))).Pairwise
        (fun a b => avgRating b ≤ avgRating a)
    ∧ (insSortDesc avgRating ((activeRoster allPlayers lobby assign).filter
          (fun p => decide (assign p.steam_id = none)))).Perm
        ((activeRoster allPlayers lobby assign).filter
          (fun p => decide (assign p.steam_id = none)))
    ∧ ∀ q : ℚ, (insSortDesc avgRating ((activeRoster allPlayers lobby assign).filter
          (fun p => decide (assign p.steam_id = none)))).filter
            (fun p => decide (avgRating p = q))
        = ((activeRoster allPlayers lobby assign).filter
            (fun p => decide (assign p.steam_id = none))).filter
            (fun p => decide (avgRating p = q)) := by
  have hfold : (t1, t2)
      = (insSortDesc avgRating ((activeRoster allPlayers lobby assign).filter
          (fun p => decide (assign p.steam_id = none)))).foldl
        (buildStep ((activeRoster allPlayers lobby assign).length / 2))
        ((activeRoster allPlayers lobby assign).filter
          (fun p => decide (assign p.steam_id = some Assignment.team1)),
         (activeRoster allPlayers lobby assign).filter
          (fun p => decide (assign p.steam_id = some Assignment.team2))) := by
    unfold generateTeams at h
    by_cases hg : (activeRoster allPlayers lobby assign).length % 2 ≠ 0
        ∨ (activeRoster allPlayers lobby assign).length < 2
    · rw [if_pos hg] at h
      exact absurd h (by simp)
    · rw [if_neg hg] at h
      exact (Option.some_injective _ h).symm
  obtain ⟨e1, e2, he⟩ := buildFold_append ((activeRoster allPlayers lobby assign).length / 2)
    (insSortDesc avgRating ((activeRoster allPlayers lobby assign).filter
      (fun p => decide (assign p.steam_id = none))))
    ((activeRoster allPlayers lobby assign).filter
      (fun p => decide (assign p.steam_id = some Assignment.team1)))
    ((activeRoster allPlayers lobby assign).filter
      (fun p => decide (assign p.steam_id = some Assignment.team2)))
  have hpair : (t1, t2)
      = ((activeRoster allPlayers lobby assign).filter
          (fun p => decide (assign p.steam_id = some Assignment.team1)) ++ e1,
         (activeRoster allPlayers lobby assign).filter
          (fun p => decide (assign p.steam_id = some Assignment.team2)) ++ e2) := by
    rw [hfold, he]
  have ht1 : t1 = (activeRoster allPlayers lobby assign).filter
      (fun p => decide (assign p.steam_id = some Assignment.team1)) ++ e1 :=
    congrArg Prod.fst hpair
  have ht2 : t2 = (activeRoster allPlayers lobby assign).filter
      (fun p => decide (assign p.steam_id = some Assignment.team2)) ++ e2 :=
    congrArg Prod.snd hpair
  refine ⟨?_, ?_, hfold, fun u1 u2 c => buildStep_eq _ u1 u2 c,
    insSortDesc_sorted _ _, insSortDesc_perm _ _, fun q => insSortDesc_stable _ _ q⟩
  · intro p hp hpin
    rw [ht1]
    exact List.mem_append_left _ (List.mem_filter.mpr ⟨hp, by simp [hpin]⟩)
  · intro p hp hpin
    rw [ht2]
    exact List.mem_append_left _ (List.mem_filter.mpr ⟨hp, by simp [hpin]⟩)

/-- Witness for C3 on a 4-player lobby with player "2" pinned to team1:
the pinned player appears in team1. -/
theorem C3_balancer_greedy_witness : balAgg "2" "p2" ∈ balPairPin.1 := by
  have h := C3_balancer_greedy balPlayers balLobby4 pinAssign balPairPin.1 balPairPin.2 rfl
  have hact : activeRoster balPlayers balLobby4 pinAssign
      = [balAgg "1" "p1", balAgg "2" "p2", balAgg "3" "p3", balAgg "4" "p4"] := rfl
  refine h.1 (balAgg "2" "p2") ?_ rfl
  rw [hact]
  exact List.mem_cons_of_mem _ (List.mem_cons_self _ _)

/-- C5: an odd or too-small active roster is a validation failure (`none`,
no partial result); an active roster of 8 with no pins yields a result with
two teams of exactly 4. -/
theorem C5_roster_parity (allPlayers : List AggregatedPlayerStats) (lobby : List String)
    (assign : String → Option Assignment) :
    (((activeRoster allPlayers lobby assign).length % 2 ≠ 0
        ∨ (activeRoster allPlayers lobby assign).length < 2) →
      generateTeams allPlayers lobby assign = none)
    ∧ ((activeRoster allPlayers lobby assign).length = 8 →
        (generateTeams allPlayers lobby assign).isSome = true)
    ∧ ((activeRoster allPlayers lobby assign).length = 8 →
        (∀ p ∈ activeRoster allPlayers lobby assign, assign p.steam_id = none) →
        ∀ t1 t2, generateTeams allPlayers lobby assign = some (t1, t2) →
          t1.length = 4 ∧ t2.length = 4) := by
  refine ⟨?_, ?_, ?_⟩
  · intro hg
    unfold generateTeams
    rw [if_pos hg]
  · intro h8
    unfold generateTeams
    rw [if_neg (by omega)]
    rfl
  · intro h8 hnopin t1 t2 h
    have hfold : (t1, t2)
        = (insSortDesc avgRating ((activeRoster allPlayers lobby assign).filter
            (fun p => decide (assign p.steam_id = none)))).foldl
          (buildStep ((activeRoster allPlayers lobby assign).length / 2))
          ((activeRoster allPlayers lobby assign).filter
            (fun p => decide (assign p.steam_id = some Assignment.team1)),
           (activeRoster allPlayers lobby assign).filter
            (fun p => decide (assign p.steam_id = some Assignment.team2))) := by
      unfold generateTeams at h
      rw [if_neg (by omega)] at h
      exact (Option.some_injective _ h).symm
    have hpin1 : (activeRoster allPlayers lobby assign).filter
        (fun p => decide (assign p.steam_id = some Assignment.team1)) = [] := by
      rw [List.filter_eq_nil_iff]
      intro p hp
      simp [hnopin p hp]
    have hpin2 : (activeRoster allPlayers lobby assign).filter
        (fun p => decide (assign p.steam_id = some Assignment.team2)) = [] := by
      rw [List.filter_eq_nil_iff]
      intro p hp
      simp [hnopin p hp]
    have hpool : (activeRoster allPlayers lobby assign).filter
        (fun p => decide (assign p.steam_id = none)) = activeRoster allPlayers lobby assign := by
      rw [List.filter_eq_self]
      intro p hp
      simp [hnopin p hp]
    have hlen : (insSortDesc avgRating ((activeRoster allPlayers lobby assign).filter
        (fun p => decide (assign p.steam_id = none)))).length = 8 := by
      rw [(insSortDesc_perm avgRating _).length_eq, hpool, h8]
    have hts : (activeRoster allPlayers lobby assign).length / 2 = 4 := by omega
    rw [hpin1, hpin2, hts] at hfold
    obtain ⟨ha, hb, hc⟩ := buildFold_length 4
      (insSortDesc avgRating ((activeRoster allPlayers lobby assign).filter
        (fun p => decide (assign p.steam_id = none)))) [] []
      (by simp [hlen])
    rw [← hfold] at ha hb hc
    simp only [List.length_nil, hlen] at ha hb hc
    constructor <;> [skip; skip] <;> omega

/-- Witness for C5: an odd 3-player roster is rejected; the 8-player
no-pin roster splits 4/4. -/
theorem C5_roster_parity_witness :
    generateTeams balPlayers balLobby3 noAssign = none
    ∧ balPair8.1.length = 4 ∧ balPair8.2.length = 4 := by
  refine ⟨(C5_roster_parity balPlayers balLobby3 noAssign).1 (Or.inl (by decide)), ?_⟩
  exact (C5_roster_parity balPlayers balLobby8 noAssign).2.2 (by decide)
    (fun p hp => rfl) balPair8.1 balPair8.2 rfl

/-- C10: whenever generation succeeds on a duplicate-free lobby, the two
teams are disjoint and together contain every active player exactly once —
no unpinned player is dropped, even when a pin overfills one team. -/
theorem C10_balancer_partition (allPlayers : List AggregatedPlayerStats) (lobby : List String)
    (assign : String → Option Assignment) (t1 t2 : List AggregatedPlayerStats)
    (hnd : lobby.Nodup) (h : generateTeams allPlayers lobby assign = some (t1, t2)) :
    (t1 ++ t2).Perm (activeRoster allPlayers lobby assign)
    ∧ (t1 ++ t2).Nodup
    ∧ ∀ p ∈ t1, p ∉ t2 := by
  have hguard : ¬ ((activeRoster allPlayers lobby assign).length % 2 ≠ 0
      ∨ (activeRoster allPlayers lobby assign).length < 2) := by
    intro hg
    unfold generateTeams at h
    rw [if_pos hg] at h
    exact absurd h (by simp)
  have hfold : (t1, t2)
      = (insSortDesc avgRating ((activeRoster allPlayers lobby assign).filter
          (fun p => decide (assign p.steam_id = none)))).foldl
        (buildStep ((activeRoster allPlayers lobby assign).length / 2))
        ((activeRoster allPlayers lobby assign).filter
          (fun p => decide (assign p.steam_id = some Assignment.team1)),
         (activeRoster allPlayers lobby assign).filter
          (fun p => decide (assign p.steam_id = some Assignment.team2))) := by
    unfold generateTeams at h
    rw [if_neg hguard] at h
    exact (Option.some_injective _ h).symm
  have hpart := active_partition allPlayers lobby assign
  have hsortperm := insSortDesc_perm avgRating ((activeRoster allPlayers lobby assign).filter
    (fun p => decide (assign p.steam_id = none)))
  have hlensum : ((activeRoster allPlayers lobby assign).filter
        (fun p => decide (assign p.steam_id = some Assignment.team1))).length
      + ((activeRoster allPlayers lobby assign).filter
        (fun p => decide (assign p.steam_id = some Assignment.team2))).length
      + (insSortDesc avgRating ((activeRoster allPlayers lobby assign).filter
        (fun p => decide (assign p.steam_id = none)))).length
      = (activeRoster allPlayers lobby assign).length := by
    have := hpart.length_eq
    simp only [List.length_append] at this
    rw [hsortperm.length_eq]
    omega
  have hle : ((activeRoster allPlayers lobby assign).filter
        (fun p => decide (assign p.steam_id = some Assignment.team1))).length
      + ((activeRoster allPlayers lobby assign).filter
        (fun p => decide (assign p.steam_id = some Assignment.team2))).length
      + (insSortDesc avgRating ((activeRoster allPlayers lobby assign).filter
        (fun p => decide (assign p.steam_id = none)))).length
      ≤ 2 * ((activeRoster allPlayers lobby assign).length / 2) := by
    rw [hlensum]
    omega
  have hperm := buildFold_perm ((activeRoster allPlayers lobby assign).length / 2)
    (insSortDesc avgRating ((activeRoster allPlayers lobby assign).filter
      (fun p => decide (assign p.steam_id = none))))
    ((activeRoster allPlayers lobby assign).filter
      (fun p => decide (assign p.steam_id = some Assignment.team1)))
    ((activeRoster allPlayers lobby assign).filter
      (fun p => decide (assign p.steam_id = some Assignment.team2))) hle
  rw [← hfold] at hperm
  have hmain : (t1 ++ t2).Perm (activeRoster allPlayers lobby assign) := by
    refine hperm.trans ?_
    refine (List.Perm.append_left _ hsortperm).trans hpart
  have hnodup : (t1 ++ t2).Nodup :=
    hmain.nodup_iff.mpr (activeRoster_nodup allPlayers lobby assign hnd)
  refine ⟨hmain, hnodup, ?_⟩
  intro p hp1 hp2
  rw [List.nodup_append] at hnodup
  exact hnodup.2.2 hp1 hp2

/-- Witness for C10 on the 4-player no-pin lobby. -/
theorem C10_balancer_partition_witness :
    (balPair4.1 ++ balPair4.2).Perm (activeRoster balPlayers balLobby4 noAssign)
    ∧ (balPair4.1 ++ balPair4.2).Nodup := by
  have h := C10_balancer_partition balPlayers balLobby4 noAssign balPair4.1 balPair4.2
    (by decide) rfl
  exact ⟨h.1, h.2.1⟩

end CS
